import Mathlib

/-
  Verification development for the GoMine player session core:
  the Player aggregate (players package, file containing SyncMove),
  its permission resolution and spatial visibility operations, and
  the login handshake handler (players/handlers/LoginHandler.go).

  Machine integers: Go int32 arithmetic is modelled on Int with an
  explicit two-complement wrap. Positions are float32 in the source;
  they are modelled as rationals, since the only float operation the
  modelled code performs on them is taking the floor, which is exact.
  Go maps are modelled as association lists; Go map iteration order is
  unspecified, so the list order stands in for one admissible order.
-/

namespace GoMine

/-- Wrap an integer to the int32 range, as Go int32 arithmetic does on
overflow (two-complement). -/
def wrap32 (n : Int) : Int := (n + 2147483648) % 4294967296 - 2147483648

/-- Arithmetic right shift of an int32 value by k bits: floor division
by 2 ^ k, which is what the Go >> operator does on a signed integer. -/
def asr (n : Int) (k : Nat) : Int := Int.fdiv n (2 ^ k)

/-- A world chunk as the session sees it through interfaces.IChunk:
GetX, GetZ and GetEntities (entities are reduced to runtime ids). -/
structure Chunk where
  x : Int
  z : Int
  entities : List Nat
deriving DecidableEq

/-- Rotation state of the player (pitch, yaw, head yaw). -/
structure Rotation where
  pitch : ℚ
  yaw : ℚ
  headYaw : ℚ
deriving DecidableEq

/-- Modelled from the spec: the permissions.Permission type is not under
src (only the players package that stores and names it is). The code
uses only GetName; the spec additionally treats an explicit override as
carrying a truth value ("an explicit override for name exists and is
true"), so the model gives Permission a name and a boolean value. -/
structure Permission where
  name : String
  value : Bool
deriving DecidableEq

/-- The Player aggregate from the players package: spatial state,
permission state (the group is reduced to its HasPermission predicate,
per the external interface Group.HasPermission(name) -> bool),
lifecycle flags and the tracked-chunk map usedChunks. -/
structure Player where
  playerName : String
  displayName : String
  position : ℚ × ℚ × ℚ
  rotation : Rotation
  onGround : Bool
  viewDistance : Int
  permissions : List (String × Permission)
  permissionGroup : String → Bool
  finalized : Bool
  spawned : Bool
  usedChunks : List (Int × Chunk)

/-- Go map assignment m[k] = v on an association list: the new binding
shadows and replaces any previous binding of k. -/
def assocSet {α β : Type} [BEq α] (m : List (α × β)) (k : α) (v : β) :
    List (α × β) :=
  (k, v) :: m.filter (fun kv => kv.1 != k)

/-- NewPlayer: fresh player with the given name; empty permission map,
default group, empty usedChunks map, zero values elsewhere. -/
def NewPlayer (defaultGroup : String → Bool) (name : String) : Player :=
  { playerName := name
    displayName := name
    position := (0, 0, 0)
    rotation := ⟨0, 0, 0⟩
    onGround := false
    viewDistance := 0
    permissions := []
    permissionGroup := defaultGroup
    finalized := false
    spawned := false
    usedChunks := [] }

/-- HasPermission: true when the permission group grants the name;
otherwise true exactly when an explicit override entry with that name
exists (its value is not consulted by the code). -/
def HasPermission (player : Player) (permission : String) : Bool :=
  if player.permissionGroup permission then true
  else (player.permissions.lookup permission).isSome

/-- AddPermission: computes HasPermission of the name first, then
stores the permission under its name, and returns that earlier
HasPermission result. -/
def AddPermission (player : Player) (permission : Permission) :
    Bool × Player :=
  let hasPermission := HasPermission player permission.name
  (hasPermission,
   { player with
       permissions := assocSet player.permissions permission.name permission })

/-- RemovePermission: returns false and changes nothing when
HasPermission is false; otherwise deletes the override entry (if any)
and returns true. -/
def RemovePermission (player : Player) (permission : String) :
    Bool × Player :=
  if !HasPermission player permission then (false, player)
  else
    (true,
     { player with
         permissions := player.permissions.filter (fun kv => kv.1 != permission) })

/-- IsFinalized: reads the finalized flag. -/
def IsFinalized (player : Player) : Bool := player.finalized

/-- SetFinalized: sets the finalized flag; nothing else is touched. -/
def SetFinalized (player : Player) : Player := { player with finalized := true }

/-- SetSpawned. -/
def SetSpawned (player : Player) (value : Bool) : Player :=
  { player with spawned := value }

/-- Observable effect of SendChunk: the full chunk data packet sent to
the player. -/
inductive ChunkSendEffect where
  | sendFullChunkData (c : Chunk)
deriving DecidableEq

/-- SendChunk: sends the full chunk data and stores the chunk in the
usedChunks map under the given index. The finalized flag is not
consulted. -/
def SendChunk (player : Player) (chunk : Chunk) (index : Int) :
    Player × List ChunkSendEffect :=
  ({ player with usedChunks := assocSet player.usedChunks index chunk },
   [ChunkSendEffect.sendFullChunkData chunk])

/-- Chunk coordinate derivation in SyncMove: the floored horizontal
coordinate, converted to int32, arithmetically shifted right by 4
(chunk edge length 16 = 2 ^ 4). -/
def chunkCoord (v : ℚ) : Int := asr (wrap32 ⌊v⌋) 4

/-- The squared planar chunk distance exactly as SyncMove computes it:
int32 subtraction, int32 multiplication and int32 addition, each of
which wraps on overflow. -/
def sqDist32 (chunkX chunkZ cx cz : Int) : Int :=
  let xDist := wrap32 (chunkX - cx)
  let zDist := wrap32 (chunkZ - cz)
  wrap32 (wrap32 (xDist * xDist) + wrap32 (zDist * zDist))

/-- Observable effects of the SyncMove cull pass: viewer unsubscription
on a chunk and a despawn-from-this-player notification per entity. -/
inductive MoveEffect where
  | removeViewer (c : Chunk)
  | despawnFrom (entity : Nat)
deriving DecidableEq

/-- The cull condition of SyncMove: squared int32 planar distance to the
current chunk strictly exceeds the squared view distance. -/
def outOfRange (chunkX chunkZ rs : Int) (c : Chunk) : Bool :=
  decide (sqDist32 chunkX chunkZ c.x c.z > rs)

/-- The loop body of SyncMove over the usedChunks map: every
out-of-range entry is dropped, the player is removed as a viewer of its
chunk, and every entity of that chunk is despawned from the player;
in-range entries are kept untouched. -/
def cullChunks (chunkX chunkZ rs : Int) :
    List (Int × Chunk) → List (Int × Chunk) × List MoveEffect
  | [] => ([], [])
  | (i, c) :: rest =>
    let r := cullChunks chunkX chunkZ rs rest
    if outOfRange chunkX chunkZ rs c then
      (r.1, MoveEffect.removeViewer c ::
              (c.entities.map MoveEffect.despawnFrom ++ r.2))
    else ((i, c) :: r.1, r.2)

/-- The argument bundle of SyncMove: new position, rotation deltas and
the on-ground flag. -/
structure Move where
  x : ℚ
  y : ℚ
  z : ℚ
  pitch : ℚ
  yaw : ℚ
  headYaw : ℚ
  onGround : Bool

/-- SyncMove: replaces the position, accumulates the rotation deltas,
sets the on-ground flag, derives the current chunk coordinate from the
floored horizontal coordinates shifted right by 4, computes the squared
view distance in int32, and culls every tracked chunk whose squared
planar int32 distance exceeds it. -/
def SyncMove (player : Player) (m : Move) : Player × List MoveEffect :=
  let chunkX := chunkCoord m.x
  let chunkZ := chunkCoord m.z
  let rs := wrap32 (player.viewDistance * player.viewDistance)
  let r := cullChunks chunkX chunkZ rs player.usedChunks
  ({ player with
       position := (m.x, m.y, m.z)
       rotation := ⟨player.rotation.pitch + m.pitch,
                    player.rotation.yaw + m.yaw,
                    player.rotation.headYaw + m.headYaw⟩
       onGround := m.onGround
       usedChunks := r.1 },
   r.2)

/-- HasChunkInUse: membership of the index in the usedChunks map. -/
def HasChunkInUse (player : Player) (index : Int) : Bool :=
  (player.usedChunks.lookup index).isSome

/-- The login packet fields consumed by the handshake handler. -/
structure LoginPacket where
  username : String
  clientUUID : String
  clientXUID : String
  clientId : Int
  language : String
  skinId : String
  skinData : List Nat
  capeData : List Nat
  geometryName : String
  geometryData : String
deriving DecidableEq

/-- A packet as the dispatcher hands it to the login handler: either a
login packet or a packet of some other type (the type assertion of the
handler fails on the latter). -/
inductive Packet where
  | login (pk : LoginPacket)
  | other (typeId : Int)
deriving DecidableEq

/-- The session the handshake handler constructs on success: the
identity and appearance fields populated from the login packet. -/
structure PlayerSession where
  name : String
  clientUUID : String
  clientXUID : String
  clientId : Int
  language : String
  skinId : String
  skinData : List Nat
  capeData : List Nat
  geometryName : String
  geometryData : String
deriving DecidableEq

/-- Packets the login handler can emit through the transport adapter. -/
inductive SentPacket where
  | playStatus (status : Int)
  | resourcePackInfo
deriving DecidableEq

/-- Handle of LoginHandler: on a login packet, queries the registry for
the username; when a session with that name already exists the handler
returns false without constructing a session, mutating the registry or
sending packets. Otherwise it constructs the session from the packet
fields, sends a play status packet with status 0 and a resource pack
info packet, registers the session, and returns true. On any non-login
packet it returns true and does nothing. -/
def Handle (packet : Packet) (registry : List (String × PlayerSession)) :
    Bool × List (String × PlayerSession) × List SentPacket :=
  match packet with
  | Packet.login pk =>
    if (registry.lookup pk.username).isSome then (false, registry, [])
    else
      let player : PlayerSession :=
        { name := pk.username
          clientUUID := pk.clientUUID
          clientXUID := pk.clientXUID
          clientId := pk.clientId
          language := pk.language
          skinId := pk.skinId
          skinData := pk.skinData
          capeData := pk.capeData
          geometryName := pk.geometryName
          geometryData := pk.geometryData }
      (true, registry ++ [(pk.username, player)],
       [SentPacket.playStatus 0, SentPacket.resourcePackInfo])
  | Packet.other _ => (true, registry, [])

/-- The effective grant exactly as the specification words it: the
group grants the name, or an explicit override for the name exists and
the value of that override is true. Spec-side definition, stated for
comparison with HasPermission. -/
def specHasPermission (p : Player) (name : String) : Bool :=
  p.permissionGroup name ||
    (match p.permissions.lookup name with
     | some perm => perm.value
     | none => false)

/-- A permission group granting nothing. -/
def groupDenyAll : String → Bool := fun _ => false

/-- A permission group granting exactly the name fly. -/
def groupGrantFly : String → Bool := fun s => s == "fly"

/-- The chunk at coordinates (0, 0) with no entities. -/
def chunk00 : Chunk := ⟨0, 0, []⟩

/-- A movement sync to the origin with zero rotation deltas. -/
def mZero : Move := ⟨0, 0, 0, 0, 0, 0, false⟩

/-- An integer already inside the int32 range is unchanged by the
wrap. -/
lemma wrap32_eq_self {n : Int} (h1 : -2147483648 ≤ n) (h2 : n < 2147483648) :
    wrap32 n = n := by
  unfold wrap32
  have h3 : 0 ≤ n + 2147483648 := by linarith
  have h4 : n + 2147483648 < 4294967296 := by linarith
  rw [Int.emod_eq_of_lt h3 h4]
  ring

/-- The kept entries of the cull pass are exactly the in-range entries,
in order, untouched. -/
lemma cullChunks_fst (cx cz rs : Int) (l : List (Int × Chunk)) :
    (cullChunks cx cz rs l).1 =
      l.filter (fun ic => !outOfRange cx cz rs ic.2) := by
  induction l with
  | nil => rfl
  | cons hd tl ih =>
    obtain ⟨i, c⟩ := hd
    by_cases h : outOfRange cx cz rs c
    · simp [cullChunks, h, List.filter, ih]
    · simp [cullChunks, h, List.filter, ih]

/-- The effects of the cull pass are exactly, for each out-of-range
entry in order, one viewer removal on its chunk followed by one despawn
notification per entity of that chunk. -/
lemma cullChunks_snd (cx cz rs : Int) (l : List (Int × Chunk)) :
    (cullChunks cx cz rs l).2 =
      (l.filter (fun ic => outOfRange cx cz rs ic.2)).flatMap
        (fun ic => MoveEffect.removeViewer ic.2 ::
                     ic.2.entities.map MoveEffect.despawnFrom) := by
  induction l with
  | nil => rfl
  | cons hd tl ih =>
    obtain ⟨i, c⟩ := hd
    by_cases h : outOfRange cx cz rs c
    · simp [cullChunks, h, List.filter, ih]
    · simp [cullChunks, h, List.filter, ih]

/-- Looking up the key just assigned in a map yields the assigned
value. -/
lemma lookup_assocSet {α β : Type} [BEq α] [LawfulBEq α]
    (m : List (α × β)) (k : α) (v : β) :
    (assocSet m k v).lookup k = some v := by
  simp [assocSet, List.lookup]

/-- After deleting a key from a map, looking it up yields nothing. -/
lemma lookup_filter_ne {α β : Type} [BEq α] [LawfulBEq α]
    (m : List (α × β)) (k : α) :
    (m.filter (fun kv => kv.1 != k)).lookup k = none := by
  induction m with
  | nil => rfl
  | cons hd tl ih =>
    obtain ⟨a, b⟩ := hd
    by_cases h : a = k
    · have hb : ((a, b).1 != k) = false := by simp [h]
      rw [List.filter_cons, hb]
      simpa using ih
    · have hb : ((a, b).1 != k) = true := by simp [h]
      have hk : (k == a) = false := by
        simp only [beq_eq_false_iff_ne]
        exact fun q => h q.symm
      rw [List.filter_cons, hb]
      simp only [if_true]
      rw [List.lookup_cons]
      simp [hk, ih]

/-- Every entry of the tracked set after a movement sync was already
tracked before it and its squared int32 distance to the current chunk
coordinate is within the squared view distance. -/
lemma mem_syncMove_usedChunks {p : Player} {m : Move} {i : Int} {c : Chunk}
    (h : (i, c) ∈ (SyncMove p m).1.usedChunks) :
    (i, c) ∈ p.usedChunks ∧
      sqDist32 (chunkCoord m.x) (chunkCoord m.z) c.x c.z ≤
        wrap32 (p.viewDistance * p.viewDistance) := by
  have hc : (SyncMove p m).1.usedChunks =
      p.usedChunks.filter (fun ic =>
        !outOfRange (chunkCoord m.x) (chunkCoord m.z)
          (wrap32 (p.viewDistance * p.viewDistance)) ic.2) := by
    simp [SyncMove, cullChunks_fst]
  rw [hc] at h
  rcases List.mem_filter.mp h with ⟨hmem, hp⟩
  refine ⟨hmem, ?_⟩
  simp [outOfRange] at hp
  exact hp

/-- RemovePermission on a name the player has: returns true and deletes
the override entry, leaving every other field of the player unchanged. -/
lemma removePermission_of_hasPermission {p : Player} {name : String}
    (h : HasPermission p name = true) :
    RemovePermission p name =
      (true,
       { p with permissions := p.permissions.filter (fun kv => kv.1 != name) }) := by
  simp [RemovePermission, h]

/-- A square of an integer bounded in absolute value is bounded by the
square of the bound. -/
lemma mul_self_le_mul_self_of_abs_le {d b : Int} (h1 : -b ≤ d) (h2 : d ≤ b) :
    d * d ≤ b * b := by nlinarith

/-- When both planar differences fit well inside int32, the distance
computation of SyncMove does not overflow and equals the exact squared
planar distance. -/
lemma sqDist32_small {chunkX chunkZ cx cz : Int}
    (hx1 : -32767 ≤ chunkX - cx) (hx2 : chunkX - cx ≤ 32767)
    (hz1 : -32767 ≤ chunkZ - cz) (hz2 : chunkZ - cz ≤ 32767) :
    sqDist32 chunkX chunkZ cx cz =
      (chunkX - cx) * (chunkX - cx) + (chunkZ - cz) * (chunkZ - cz) := by
  have hx2' : (chunkX - cx) * (chunkX - cx) ≤ 1073676289 :=
    mul_self_le_mul_self_of_abs_le hx1 hx2
  have hz2' : (chunkZ - cz) * (chunkZ - cz) ≤ 1073676289 :=
    mul_self_le_mul_self_of_abs_le hz1 hz2
  have hx0 : 0 ≤ (chunkX - cx) * (chunkX - cx) := mul_self_nonneg _
  have hz0 : 0 ≤ (chunkZ - cz) * (chunkZ - cz) := mul_self_nonneg _
  have wx : wrap32 (chunkX - cx) = chunkX - cx :=
    wrap32_eq_self (by linarith) (by linarith)
  have wz : wrap32 (chunkZ - cz) = chunkZ - cz :=
    wrap32_eq_self (by linarith) (by linarith)
  have wx2 : wrap32 ((chunkX - cx) * (chunkX - cx)) =
      (chunkX - cx) * (chunkX - cx) :=
    wrap32_eq_self (by linarith) (by linarith)
  have wz2 : wrap32 ((chunkZ - cz) * (chunkZ - cz)) =
      (chunkZ - cz) * (chunkZ - cz) :=
    wrap32_eq_self (by linarith) (by linarith)
  simp only [sqDist32]
  rw [wx, wz, wx2, wz2]
  exact wrap32_eq_self (by linarith) (by linarith)

/-- A player with view distance 1, the deny-all group, no overrides and
an empty tracked-chunk set. -/
def pC1 : Player :=
  { playerName := "Steve", displayName := "Steve", position := (0, 0, 0),
    rotation := ⟨0, 0, 0⟩, onGround := false, viewDistance := 1,
    permissions := [], permissionGroup := groupDenyAll, finalized := false,
    spawned := false, usedChunks := [] }

/-- C1: counterexample. After a movement sync to the origin from the
empty tracked set with view distance 1, the chunk at (0, 0) has squared
distance 0 to the current chunk, within the view distance, yet it is
not in the tracked set: SyncMove never adds chunks, so the claimed
if-and-only-if invariant fails in the only-if direction. -/
theorem C1_counterexample :
    ¬(((SyncMove pC1 mZero).1.usedChunks.any
         (fun ic => ic.2.x == 0 && ic.2.z == 0)) = true ↔
      sqDist32 (chunkCoord mZero.x) (chunkCoord mZero.z) 0 0 ≤
        wrap32 (pC1.viewDistance * pC1.viewDistance)) := by
  decide

/-- C1 (amended): after every movement sync, every chunk in the tracked
set was already tracked before the sync and its squared planar int32
distance to the currently synced chunk coordinate is at most the
squared view distance; chunks that came into range are not added by the
sync itself (a separate chunk-send path does that). Applying this to
the last sync of any sequence of movement syncs gives the amended
invariant after each sync. -/
theorem C1_tracked_implies_in_range (p : Player) (m : Move) (i : Int) (c : Chunk)
    (h : (i, c) ∈ (SyncMove p m).1.usedChunks) :
    (i, c) ∈ p.usedChunks ∧
      sqDist32 (chunkCoord m.x) (chunkCoord m.z) c.x c.z ≤
        wrap32 (p.viewDistance * p.viewDistance) :=
  mem_syncMove_usedChunks h

/-- The player of claim C1 with the chunk at (0, 0) tracked under
index 0. -/
def pC1w : Player := { pC1 with usedChunks := [(0, chunk00)] }

/-- C1 (amended): witness. The chunk at (0, 0) survives a sync to the
origin with view distance 1, and indeed was tracked before with squared
distance within the squared view distance. -/
theorem C1_tracked_implies_in_range_witness :
    (0, chunk00) ∈ pC1w.usedChunks ∧
      sqDist32 (chunkCoord mZero.x) (chunkCoord mZero.z) chunk00.x chunk00.z ≤
        wrap32 (pC1w.viewDistance * pC1w.viewDistance) :=
  C1_tracked_implies_in_range pC1w mZero 0 chunk00 (by decide)

/-- C2: SyncMove derives the current chunk coordinate as the floored
horizontal coordinate (as int32) arithmetically shifted right by the
chunk-size exponent 4; it keeps exactly the tracked entries whose
squared planar int32 chunk distance is within the squared view
distance, untouched and in order; its effects are exactly, for each
out-of-range entry, one viewer unsubscription on that chunk followed by
one despawn-to-this-player notification per entity of that chunk; and
besides the position, rotation accumulation, on-ground flag and tracked
set, no field of the session changes. -/
theorem C2_syncMove_characterization (p : Player) (m : Move) :
    chunkCoord m.x = asr (wrap32 ⌊m.x⌋) 4 ∧
    chunkCoord m.z = asr (wrap32 ⌊m.z⌋) 4 ∧
    (SyncMove p m).1.usedChunks =
      p.usedChunks.filter (fun ic =>
        !outOfRange (chunkCoord m.x) (chunkCoord m.z)
          (wrap32 (p.viewDistance * p.viewDistance)) ic.2) ∧
    (SyncMove p m).2 =
      (p.usedChunks.filter (fun ic =>
        outOfRange (chunkCoord m.x) (chunkCoord m.z)
          (wrap32 (p.viewDistance * p.viewDistance)) ic.2)).flatMap
        (fun ic => MoveEffect.removeViewer ic.2 ::
                     ic.2.entities.map MoveEffect.despawnFrom) ∧
    (SyncMove p m).1.position = (m.x, m.y, m.z) ∧
    (SyncMove p m).1.rotation =
      ⟨p.rotation.pitch + m.pitch, p.rotation.yaw + m.yaw,
       p.rotation.headYaw + m.headYaw⟩ ∧
    (SyncMove p m).1.onGround = m.onGround ∧
    (SyncMove p m).1.viewDistance = p.viewDistance ∧
    (SyncMove p m).1.permissions = p.permissions ∧
    (SyncMove p m).1.permissionGroup = p.permissionGroup ∧
    (SyncMove p m).1.finalized = p.finalized ∧
    (SyncMove p m).1.spawned = p.spawned ∧
    (SyncMove p m).1.playerName = p.playerName ∧
    (SyncMove p m).1.displayName = p.displayName := by
  refine ⟨rfl, rfl, ?_, ?_, rfl, rfl, rfl, rfl, rfl, rfl, rfl, rfl, rfl, rfl⟩
  · simp [SyncMove, cullChunks_fst]
  · simp [SyncMove, cullChunks_snd]

/-- The player of claim C1 with view distance 0 and the chunk at (0, 0)
tracked under index 0. -/
def pC8 : Player := { pC1 with viewDistance := 0, usedChunks := [(0, chunk00)] }

/-- C8: counterexample. With view distance 0, a movement sync to the
origin keeps the chunk at (0, 0) tracked, because its squared distance
0 does not strictly exceed the squared view distance 0: the tracked set
is not empty after the sync, contradicting the claim. -/
theorem C8_counterexample :
    pC8.viewDistance = 0 ∧
    (SyncMove pC8 mZero).1.usedChunks = [(0, chunk00)] := by
  decide

/-- C8 (amended): with view distance 0, after a movement sync every
still-tracked chunk has int32-computed squared planar distance at most
0 to the current chunk coordinate; whenever the planar differences are
small enough for the int32 computation not to overflow, this forces the
chunk to be exactly the chunk at the current chunk coordinate. -/
theorem C8_view_distance_zero (p : Player) (m : Move) (i : Int) (c : Chunk)
    (hvd : p.viewDistance = 0)
    (hmem : (i, c) ∈ (SyncMove p m).1.usedChunks) :
    sqDist32 (chunkCoord m.x) (chunkCoord m.z) c.x c.z ≤ 0 ∧
    (-32767 ≤ chunkCoord m.x - c.x → chunkCoord m.x - c.x ≤ 32767 →
     -32767 ≤ chunkCoord m.z - c.z → chunkCoord m.z - c.z ≤ 32767 →
     c.x = chunkCoord m.x ∧ c.z = chunkCoord m.z) := by
  have h := mem_syncMove_usedChunks hmem
  have hz : wrap32 (p.viewDistance * p.viewDistance) = 0 := by
    rw [hvd]
    decide
  have hle : sqDist32 (chunkCoord m.x) (chunkCoord m.z) c.x c.z ≤ 0 := by
    have := h.2
    rwa [hz] at this
  refine ⟨hle, ?_⟩
  intro hx1 hx2 hz1 hz2
  rw [sqDist32_small hx1 hx2 hz1 hz2] at hle
  have hx0 : 0 ≤ (chunkCoord m.x - c.x) * (chunkCoord m.x - c.x) :=
    mul_self_nonneg _
  have hz0 : 0 ≤ (chunkCoord m.z - c.z) * (chunkCoord m.z - c.z) :=
    mul_self_nonneg _
  have hxz : (chunkCoord m.x - c.x) * (chunkCoord m.x - c.x) = 0 := by linarith
  have hzz : (chunkCoord m.z - c.z) * (chunkCoord m.z - c.z) = 0 := by linarith
  have hxe : chunkCoord m.x - c.x = 0 := mul_self_eq_zero.mp hxz
  have hze : chunkCoord m.z - c.z = 0 := mul_self_eq_zero.mp hzz
  constructor <;> omega

/-- C8 (amended): witness. The chunk at (0, 0), still tracked after a
sync to the origin with view distance 0, has squared distance 0 and is
exactly the current chunk. -/
theorem C8_view_distance_zero_witness :
    sqDist32 (chunkCoord mZero.x) (chunkCoord mZero.z) chunk00.x chunk00.z ≤ 0 ∧
    (-32767 ≤ chunkCoord mZero.x - chunk00.x → chunkCoord mZero.x - chunk00.x ≤ 32767 →
     -32767 ≤ chunkCoord mZero.z - chunk00.z → chunkCoord mZero.z - chunk00.z ≤ 32767 →
     chunk00.x = chunkCoord mZero.x ∧ chunk00.z = chunkCoord mZero.z) :=
  C8_view_distance_zero pC8 mZero 0 chunk00 rfl (by decide)

/-- The player of claim C1 carrying an explicit override named fly
whose value is false, with the deny-all group. -/
def pC3 : Player := { pC1 with permissions := [("fly", ⟨"fly", false⟩)] }

/-- C3: counterexample. With an explicit override for fly whose value
is false and a group that denies fly, HasPermission returns true (the
code tests only existence of the override entry), while the predicate
worded as the claim states it (group grants, or override exists and its
value is true) is false. -/
theorem C3_counterexample :
    ¬(HasPermission pC3 "fly" = true ↔ specHasPermission pC3 "fly" = true) := by
  decide

/-- C3 (amended): HasPermission returns true exactly when the group of
the session grants the name or an explicit override entry for the name
exists, regardless of the value stored in that override. -/
theorem C3_hasPermission_presence (p : Player) (name : String) :
    HasPermission p name =
      (p.permissionGroup name || (p.permissions.lookup name).isSome) := by
  unfold HasPermission
  by_cases h : p.permissionGroup name <;> simp [h]

/-- The player of claim C1 whose group grants exactly fly, holding no
explicit overrides. -/
def pGroupFly : Player := { pC1 with permissionGroup := groupGrantFly }

/-- C4: evaluation at the failing input. The group grants fly and no
explicit override named fly exists, yet AddPermission of a permission
named fly returns true, because the code returns the prior HasPermission
result, which includes group grants; its own doc comment and the claim
say the return value means a same-named override was overwritten, which
is false here. -/
theorem C4_group_grant_reported_as_overwrite :
    pGroupFly.permissions.lookup "fly" = none ∧
    pGroupFly.permissionGroup "fly" = true ∧
    (AddPermission pGroupFly ⟨"fly", true⟩).1 = true := by
  decide

/-- C5: counterexample. The session holds no explicit override named
fly, but since its group grants fly, RemovePermission returns true, not
false as the claim requires. -/
theorem C5_counterexample :
    pGroupFly.permissions.lookup "fly" = none ∧
    ¬((RemovePermission pGroupFly "fly").1 = false) := by
  decide

/-- C5 (amended): for every permission name for which the session holds
no explicit override and which its group does not grant, RemovePermission
returns false and leaves the whole session, permission state included,
completely unchanged. -/
theorem C5_remove_absent_noop (p : Player) (name : String)
    (h1 : p.permissions.lookup name = none)
    (h2 : p.permissionGroup name = false) :
    RemovePermission p name = (false, p) := by
  have hh : HasPermission p name = false := by
    simp [HasPermission, h1, h2]
  simp [RemovePermission, hh]

/-- C5 (amended): witness. Removing fly from a player with no override
and the deny-all group returns false and changes nothing. -/
theorem C5_remove_absent_noop_witness :
    RemovePermission pC1 "fly" = (false, pC1) :=
  C5_remove_absent_noop pC1 "fly" rfl rfl

/-- C9: assuming the group denies fly and no override for fly exists,
AddPermission of a permission named fly makes HasPermission of fly
true, and a subsequent RemovePermission of fly restores HasPermission
of fly to false (group-only behaviour). -/
theorem C9_add_then_remove (p : Player) (v : Bool)
    (hg : p.permissionGroup "fly" = false)
    (h0 : p.permissions.lookup "fly" = none) :
    HasPermission (AddPermission p ⟨"fly", v⟩).2 "fly" = true ∧
    HasPermission
      (RemovePermission (AddPermission p ⟨"fly", v⟩).2 "fly").2 "fly" = false := by
  have h1 : HasPermission (AddPermission p ⟨"fly", v⟩).2 "fly" = true := by
    simp [HasPermission, AddPermission, hg, lookup_assocSet]
  refine ⟨h1, ?_⟩
  rw [removePermission_of_hasPermission h1]
  simp [HasPermission, AddPermission, hg, lookup_filter_ne]

/-- A fresh player under the deny-all default group. -/
def pC9 : Player := NewPlayer groupDenyAll "Steve"

/-- C9: witness. The add-check-remove-check scenario on a fresh player
whose default group denies everything. -/
theorem C9_add_then_remove_witness :
    HasPermission (AddPermission pC9 ⟨"fly", true⟩).2 "fly" = true ∧
    HasPermission
      (RemovePermission (AddPermission pC9 ⟨"fly", true⟩).2 "fly").2 "fly" = false :=
  C9_add_then_remove pC9 true rfl rfl

/-- C6: when the registry already holds a session under the username of
the login packet, Handle returns false, leaves the registry unchanged
and sends no packets; no session is constructed (the construction
happens only on the branch where the name is free). -/
theorem C6_duplicate_login_rejected (pk : LoginPacket)
    (registry : List (String × PlayerSession))
    (h : (registry.lookup pk.username).isSome = true) :
    Handle (Packet.login pk) registry = (false, registry, []) := by
  simp [Handle, h]

/-- A login packet for the username Steve. -/
def pkSteve : LoginPacket :=
  { username := "Steve", clientUUID := "uuid", clientXUID := "xuid",
    clientId := 1, language := "en_US", skinId := "skin", skinData := [],
    capeData := [], geometryName := "geo", geometryData := "" }

/-- The registered session of the username Steve. -/
def steveSession : PlayerSession :=
  { name := "Steve", clientUUID := "uuid", clientXUID := "xuid",
    clientId := 1, language := "en_US", skinId := "skin", skinData := [],
    capeData := [], geometryName := "geo", geometryData := "" }

/-- C6: witness. A second login for Steve while Steve is registered is
rejected with no observable side effect. -/
theorem C6_duplicate_login_rejected_witness :
    Handle (Packet.login pkSteve) [("Steve", steveSession)] =
      (false, [("Steve", steveSession)], []) :=
  C6_duplicate_login_rejected pkSteve [("Steve", steveSession)] (by decide)

/-- C10: for every packet that is not a login packet, Handle returns
true, leaves the registry unchanged and sends no packets. -/
theorem C10_non_login_noop (t : Int) (registry : List (String × PlayerSession)) :
    Handle (Packet.other t) registry = (true, registry, []) := rfl

/-- C7: counterexample. A finalized session can still gain tracked
chunks: starting from a fresh player, SetFinalized followed by
SendChunk yields a session that is finalized and whose tracked-chunk
set is not empty, so finalization neither empties the tracked set nor
prevents later visibility mutation. -/
theorem C7_counterexample :
    IsFinalized (SetFinalized (NewPlayer groupDenyAll "Steve")) = true ∧
    (SendChunk (SetFinalized (NewPlayer groupDenyAll "Steve")) chunk00 0).1.usedChunks
      ≠ [] ∧
    IsFinalized
      (SendChunk (SetFinalized (NewPlayer groupDenyAll "Steve")) chunk00 0).1 =
      true := by
  decide

/-- C7 (amended): SetFinalized only raises the flag and leaves the
tracked-chunk set untouched, and SendChunk stores its chunk in the
tracked set without consulting the finalized flag: the session
operations under src do not enforce the claimed invariant, which is
left to the external teardown path. -/
theorem C7_finalize_not_enforced (p : Player) (c : Chunk) (i : Int) :
    (SetFinalized p).usedChunks = p.usedChunks ∧
    (SetFinalized p).finalized = true ∧
    (SendChunk p c i).1.finalized = p.finalized ∧
    ((SendChunk p c i).1.usedChunks.lookup i) = some c :=
  ⟨rfl, rfl, rfl, lookup_assocSet p.usedChunks i c⟩

end GoMine
